import Mathlib

/-!
Verification development for the PlotHg beam-deflection repository.

The numeric relation functions are shallowly embedded from
`src/beam_model.py`, with Python floats modelled as elements of a linear
ordered field (instantiated at `ℚ` for executable evaluation and at `ℝ`
for the algebraic round-trip facts).  A Python `ZeroDivisionError` raised
during the evaluation of a relation is modelled by `Option`-valued
"evaluation" variants (`..._ev`) that return `none` exactly when a
denominator computed by the Python expression is zero, checked in the
order the Python expression evaluates them.

The hypergraph engine (`constrainthg`) and the plotting layer (`plothg`)
are not part of the sources; the model/resolver below is modelled from
the specification (see doc comments on the individual definitions).
-/

/-- Forward Timoshenko relation, from `timoshenko_beam_deflection`
(src/beam_model.py lines 47-50): bending term plus shear term. -/
def timoshenko_beam_deflection {K : Type} [LinearOrderedField K]
    (P E I L k G A : K) : K :=
  P * L ^ 3 / (3 * E * I) + P * L / (k * G * A)

/-- Inverse for the point load, from `solve_for_P_from_timoshenko`
(src/beam_model.py lines 52-53). -/
def solve_for_P_from_timoshenko {K : Type} [LinearOrderedField K]
    (theta E I L k G A : K) : K :=
  theta / (L ^ 3 / (3 * E * I) + L / (k * G * A))

/-- Inverse for the elastic modulus, from `solve_for_E_from_timoshenko`
(src/beam_model.py lines 55-56). -/
def solve_for_E_from_timoshenko {K : Type} [LinearOrderedField K]
    (theta P I L k G A : K) : K :=
  P * L ^ 3 / (3 * I * (theta - P * L / (k * G * A)))

/-- Inverse for the moment of inertia, from `solve_for_I_from_timoshenko`
(src/beam_model.py lines 58-59). -/
def solve_for_I_from_timoshenko {K : Type} [LinearOrderedField K]
    (theta P E L k G A : K) : K :=
  P * L ^ 3 / (3 * E * (theta - P * L / (k * G * A)))

/-- Inverse for the shear coefficient, from `solve_for_k_from_timoshenko`
(src/beam_model.py lines 70-71). -/
def solve_for_k_from_timoshenko {K : Type} [LinearOrderedField K]
    (theta P E I L G A : K) : K :=
  P * L / (G * A * (theta - P * L ^ 3 / (3 * E * I)))

/-- Inverse for the shear modulus, from `solve_for_G_from_timoshenko`
(src/beam_model.py lines 73-74). -/
def solve_for_G_from_timoshenko {K : Type} [LinearOrderedField K]
    (theta P E I L k A : K) : K :=
  P * L / (k * A * (theta - P * L ^ 3 / (3 * E * I)))

/-- Inverse for the cross-sectional area, from `solve_for_A_from_timoshenko`
(src/beam_model.py lines 76-77). -/
def solve_for_A_from_timoshenko {K : Type} [LinearOrderedField K]
    (theta P E I L k G : K) : K :=
  P * L / (k * G * (theta - P * L ^ 3 / (3 * E * I)))

/-- Coefficient list `[P/(3*E*I), 0, P/(k*G*A), -theta]` built by
`solve_for_L_from_timoshenko` (src/beam_model.py line 62). -/
def timoshenko_L_coeffs {K : Type} [LinearOrderedField K]
    (theta P E I k G A : K) : List K :=
  [P / (3 * E * I), 0, P / (k * G * A), -theta]

/-- The cubic polynomial those coefficients denote, evaluated at `x`. -/
def timoshenko_L_cubic {K : Type} [LinearOrderedField K]
    (theta P E I k G A x : K) : K :=
  P / (3 * E * I) * x ^ 3 + 0 * x ^ 2 + P / (k * G * A) * x - theta

/-- Inverse for the length, from `solve_for_L_from_timoshenko`
(src/beam_model.py lines 61-68).  `np.roots` is a numeric routine outside
the sources, so it enters as the parameter `nproots`, standing for the
list of real roots the routine reports for the coefficient list, in the
order it produces them (the complex ones being discarded by the
`np.isreal` mask).  The function keeps the real positive roots, returns
the first one if any exists, and returns `0` otherwise. -/
def solve_for_L_from_timoshenko {K : Type} [LinearOrderedField K]
    [DecidableRel ((· < ·) : K → K → Prop)]
    (nproots : List K → List K) (theta P E I k G A : K) : K :=
  (((nproots (timoshenko_L_coeffs theta P E I k G A)).filter
      (fun r => decide (0 < r))).headD 0)

/-- Spec-side counterpart of the length inverse, following the
specification's words ("the relation's function must itself select
exactly one numeric answer before returning ...; if no such root exists,
the function signals a domain error"): `none` is the domain-error
signal. -/
def solve_for_L_spec {K : Type} [LinearOrderedField K]
    [DecidableRel ((· < ·) : K → K → Prop)]
    (nproots : List K → List K) (theta P E I k G A : K) : Option K :=
  ((nproots (timoshenko_L_coeffs theta P E I k G A)).filter
      (fun r => decide (0 < r))).head?

/-! ### Exception-aware evaluation variants

Python raises `ZeroDivisionError` when a denominator is `0`; the
specification says such relation-level domain errors are caught per
relation attempt.  Each `..._ev` function returns `none` exactly when the
corresponding Python expression would raise, checking the denominators in
the order the expression evaluates them. -/

/-- Evaluation of `timoshenko_beam_deflection` with division-by-zero
modelled as `none`. -/
def timoshenko_beam_deflection_ev (P E I L k G A : ℚ) : Option ℚ :=
  if 3 * E * I = 0 then none
  else if k * G * A = 0 then none
  else some (P * L ^ 3 / (3 * E * I) + P * L / (k * G * A))

/-- Evaluation of `solve_for_P_from_timoshenko` with division-by-zero
modelled as `none`. -/
def solve_for_P_ev (theta E I L k G A : ℚ) : Option ℚ :=
  if 3 * E * I = 0 then none
  else if k * G * A = 0 then none
  else if L ^ 3 / (3 * E * I) + L / (k * G * A) = 0 then none
  else some (theta / (L ^ 3 / (3 * E * I) + L / (k * G * A)))

/-- Evaluation of `solve_for_E_from_timoshenko` with division-by-zero
modelled as `none`. -/
def solve_for_E_ev (theta P I L k G A : ℚ) : Option ℚ :=
  if k * G * A = 0 then none
  else if 3 * I * (theta - P * L / (k * G * A)) = 0 then none
  else some (P * L ^ 3 / (3 * I * (theta - P * L / (k * G * A))))

/-- Evaluation of `solve_for_I_from_timoshenko` with division-by-zero
modelled as `none`. -/
def solve_for_I_ev (theta P E L k G A : ℚ) : Option ℚ :=
  if k * G * A = 0 then none
  else if 3 * E * (theta - P * L / (k * G * A)) = 0 then none
  else some (P * L ^ 3 / (3 * E * (theta - P * L / (k * G * A))))

/-- Evaluation of `solve_for_L_from_timoshenko` with division-by-zero
modelled as `none` (the divisions happen while building the coefficient
list; root selection itself never raises). -/
def solve_for_L_ev (nproots : List ℚ → List ℚ)
    (theta P E I k G A : ℚ) : Option ℚ :=
  if 3 * E * I = 0 then none
  else if k * G * A = 0 then none
  else some (solve_for_L_from_timoshenko nproots theta P E I k G A)

/-- Evaluation of `solve_for_k_from_timoshenko` with division-by-zero
modelled as `none`. -/
def solve_for_k_ev (theta P E I L G A : ℚ) : Option ℚ :=
  if 3 * E * I = 0 then none
  else if G * A * (theta - P * L ^ 3 / (3 * E * I)) = 0 then none
  else some (P * L / (G * A * (theta - P * L ^ 3 / (3 * E * I))))

/-- Evaluation of `solve_for_G_from_timoshenko` with division-by-zero
modelled as `none`. -/
def solve_for_G_ev (theta P E I L k A : ℚ) : Option ℚ :=
  if 3 * E * I = 0 then none
  else if k * A * (theta - P * L ^ 3 / (3 * E * I)) = 0 then none
  else some (P * L / (k * A * (theta - P * L ^ 3 / (3 * E * I))))

/-- Evaluation of `solve_for_A_from_timoshenko` with division-by-zero
modelled as `none`. -/
def solve_for_A_ev (theta P E I L k G : ℚ) : Option ℚ :=
  if 3 * E * I = 0 then none
  else if k * G * (theta - P * L ^ 3 / (3 * E * I)) = 0 then none
  else some (P * L / (k * G * (theta - P * L ^ 3 / (3 * E * I))))

/-! ### Material and geometry helpers (src/beam_model.py lines 18-44)

These are defined inside `create_beam_model` in the source but are never
registered as edges; they are embedded here for completeness. -/

/-- From `shear_modulus_from_elastic_poisson` (line 18). -/
noncomputable def shear_modulus_from_elastic_poisson (E V : ℝ) : ℝ :=
  E / (2 * (1 + V))

/-- From `elastic_modulus_from_shear_poisson` (line 21). -/
noncomputable def elastic_modulus_from_shear_poisson (G V : ℝ) : ℝ :=
  2 * G * (1 + V)

/-- From `poisson_from_elastic_shear` (line 24). -/
noncomputable def poisson_from_elastic_shear (E G : ℝ) : ℝ :=
  E / (2 * G) - 1

/-- From `area_from_radius` (line 28). -/
noncomputable def area_from_radius (radius : ℝ) : ℝ :=
  Real.pi * radius ^ 2

/-- From `radius_from_area` (line 31). -/
noncomputable def radius_from_area (A : ℝ) : ℝ :=
  Real.sqrt (A / Real.pi)

/-- From `moment_of_inertia_from_radius` (line 34). -/
noncomputable def moment_of_inertia_from_radius (radius : ℝ) : ℝ :=
  Real.pi / 4 * radius ^ 4

/-- From `radius_from_moment_of_inertia` (line 37). -/
noncomputable def radius_from_moment_of_inertia (I : ℝ) : ℝ :=
  (4 * I / Real.pi) ^ ((1 : ℝ) / 4)

/-- From `moment_of_inertia_from_area` (line 40). -/
noncomputable def moment_of_inertia_from_area (A : ℝ) : ℝ :=
  A ^ 2 / (4 * Real.pi)

/-- From `area_from_moment_of_inertia` (line 43). -/
noncomputable def area_from_moment_of_inertia (I : ℝ) : ℝ :=
  Real.sqrt (4 * Real.pi * I)

/-! ### The hypergraph engine

Modelled from the spec: the `constrainthg` engine (Node/Relation/Model/
Resolver, spec sections 3, 4.1, 4.2 and 7) is not among the sources, so it
is reconstructed here from the specification's data model and algorithm. -/

/-- Modelled from the spec: a relation (hyperedge) — ordered input node
labels, one output label, an evaluation function returning a numeric
result or a domain-error signal (`none`), the function's arity, and a
diagnostic label. -/
structure Edge where
  label : String
  inputs : List String
  output : String
  arity : Nat
  fn : List ℚ → Option ℚ

/-- Modelled from the spec: the model (hypergraph) — registered node
labels and relations, in registration order. -/
structure Model where
  nodes : List String
  edges : List Edge

/-- Modelled from the spec: construction-time failures
(`DuplicateNodeError`, `UnknownNodeError`, `ArityMismatchError`). -/
inductive BuildError where
  | duplicateNode
  | unknownNode
  | arityMismatch
deriving DecidableEq

/-- Modelled from the spec: `add_node` registers a node and fails with
`DuplicateNodeError` if the label already exists. -/
def add_node (m : Model) (l : String) : Except BuildError Model :=
  if l ∈ m.nodes then .error .duplicateNode
  else .ok { m with nodes := m.nodes ++ [l] }

/-- Modelled from the spec: `add_relation`/`add_edge` registers a
relation; fails with `ArityMismatchError` if the declared input list
length differs from the function's arity, with `UnknownNodeError` if any
referenced node is unregistered.  The arity check happens here, at
registration time. -/
def add_edge (m : Model) (inputs : List String) (output : String)
    (arity : Nat) (fn : List ℚ → Option ℚ) (label : String) :
    Except BuildError Model :=
  if inputs.length ≠ arity then .error .arityMismatch
  else if ¬ (inputs.all (fun i => decide (i ∈ m.nodes)) ∧ output ∈ m.nodes) then
    .error .unknownNode
  else .ok { m with edges := m.edges ++ [⟨label, inputs, output, arity, fn⟩] }

/-- Modelled from the spec: `relations_for` — the relations producing a
node, in registration order. -/
def relationsFor (m : Model) (n : String) : List Edge :=
  m.edges.filter (fun e => decide (e.output = n))

/-- Lift a seven-parameter evaluation function to the engine's calling
convention; its arity is seven by construction, and it signals a failure
on any argument list that is not seven values long. -/
def fn7 (g : ℚ → ℚ → ℚ → ℚ → ℚ → ℚ → ℚ → Option ℚ) :
    List ℚ → Option ℚ
  | [a, b, c, d, e, f, h] => g a b c d e f h
  | _ => none

/-- Modelled from the spec: ephemeral per-call resolution state — the
resolved-value map seeded with the knowns, the partial trace (labels of
the relations evaluated, in evaluation order), and the "currently being
resolved" set used to detect cycles. -/
structure Session where
  values : List (String × ℚ)
  trace : List String
  visiting : List String

/-- Modelled from the spec: the failures internal to one branch of the
search (`CycleDetectedError`, `DepthExceededError`,
`UnresolvedNodeError`). -/
inductive RErr where
  | cycle
  | depth
  | unresolved (n : String)
deriving DecidableEq

/-- Modelled from the spec: the only failure a top-level `resolve` call
returns — `UnresolvedNodeError`, identifying the node that could not be
resolved. -/
inductive RFail where
  | unresolved (n : String)
deriving DecidableEq

/-- First value bound to a label in an association list (the
resolved-value map). -/
def lookup : List (String × ℚ) → String → Option ℚ
  | [], _ => none
  | (key, v) :: rest, n => if key = n then some v else lookup rest n

/-- Record a successful relation evaluation: store the value, append the
relation's label to the trace, and leave the "currently resolving"
set. -/
def commit (s : Session) (n : String) (v : ℚ) (lbl : String) : Session :=
  ⟨(n, v) :: s.values, s.trace ++ [lbl], s.visiting.erase n⟩

/-- Modelled from the spec: resolve every input of a relation in declared
order, threading the session; the first sub-failure abandons the
attempt. -/
def resolveInputs (f : Session → String → Except RErr (ℚ × Session)) :
    Session → List String → Except RErr (List ℚ × Session)
  | s, [] => .ok ([], s)
  | s, i :: rest =>
    match f s i with
    | .error err => .error err
    | .ok (v, s1) =>
      match resolveInputs f s1 rest with
      | .error err => .error err
      | .ok (vs, s2) => .ok (v :: vs, s2)

/-- Modelled from the spec: try each candidate relation in registration
order; a failing input or a domain-error signal from the function causes
fallback to the next candidate, and exhaustion yields
`UnresolvedNodeError` for the node. -/
def tryEdges (f : Session → String → Except RErr (ℚ × Session))
    (s : Session) (n : String) : List Edge → Except RErr (ℚ × Session)
  | [] => .error (.unresolved n)
  | e :: rest =>
    match resolveInputs f s e.inputs with
    | .error _ => tryEdges f s n rest
    | .ok (vs, s1) =>
      match e.fn vs with
      | none => tryEdges f s n rest
      | some v => .ok (v, commit s1 n v e.label)

/-- Modelled from the spec: depth-bounded recursive resolution of one
node — known or already-resolved values return immediately with no depth
consumed, a node already on the current path fails with
`CycleDetectedError`, an exhausted depth bound fails with
`DepthExceededError`, and otherwise each candidate relation is tried in
order with the inputs resolved at depth one less. -/
def resolveNode (M : Model) : Nat → Session → String → Except RErr (ℚ × Session)
  | 0, s, n =>
    match lookup s.values n with
    | some v => .ok (v, s)
    | none =>
      if n ∈ s.visiting then .error .cycle else .error .depth
  | d + 1, s, n =>
    match lookup s.values n with
    | some v => .ok (v, s)
    | none =>
      if n ∈ s.visiting then .error .cycle
      else tryEdges (resolveNode M d) ⟨s.values, s.trace, n :: s.visiting⟩ n
        (relationsFor M n)

/-- Modelled from the spec: the top-level resolver contract — a fresh
session seeded with the knowns, and every internal failure folded into
`UnresolvedNodeError` for the target. -/
def resolve (M : Model) (knowns : List (String × ℚ)) (target : String)
    (maxDepth : Nat) : Except RFail (ℚ × List String) :=
  match resolveNode M maxDepth ⟨knowns, [], []⟩ target with
  | .ok (v, s) => .ok (v, s.trace)
  | .error _ => .error (.unresolved target)

/-! ### The beam payload (src/beam_model.py lines 79-103) -/

/-- The eight node labels, in the registration order of
`create_beam_model` (src/beam_model.py lines 80-87). -/
def beamLabels : List String :=
  ["point load", "kappa", "youngs modulus", "moment of inertia",
   "shear modulus", "area", "length", "theta"]

/-- `create_beam_model` (src/beam_model.py lines 4-103): registers the
eight nodes and then the eight Timoshenko relations, each declaring seven
inputs and binding a seven-parameter function, in source order.
`nproots` is the `np.roots` routine threaded into the length inverse. -/
def create_beam_model (nproots : List ℚ → List ℚ) : Except BuildError Model := do
  let m : Model := ⟨[], []⟩
  let m ← add_node m "point load"
  let m ← add_node m "kappa"
  let m ← add_node m "youngs modulus"
  let m ← add_node m "moment of inertia"
  let m ← add_node m "shear modulus"
  let m ← add_node m "area"
  let m ← add_node m "length"
  let m ← add_node m "theta"
  let m ← add_edge m ["point load", "youngs modulus", "moment of inertia",
      "length", "kappa", "shear modulus", "area"] "theta" 7
      (fn7 timoshenko_beam_deflection_ev) "Timoshenko"
  let m ← add_edge m ["theta", "youngs modulus", "moment of inertia",
      "length", "kappa", "shear modulus", "area"] "point load" 7
      (fn7 solve_for_P_ev) "Timoshenko->P"
  let m ← add_edge m ["theta", "point load", "moment of inertia", "length",
      "kappa", "shear modulus", "area"] "youngs modulus" 7
      (fn7 solve_for_E_ev) "Timoshenko->E"
  let m ← add_edge m ["theta", "point load", "youngs modulus", "length",
      "kappa", "shear modulus", "area"] "moment of inertia" 7
      (fn7 solve_for_I_ev) "Timoshenko->I"
  let m ← add_edge m ["theta", "point load", "youngs modulus",
      "moment of inertia", "kappa", "shear modulus", "area"] "length" 7
      (fn7 (solve_for_L_ev nproots)) "Timoshenko->L"
  let m ← add_edge m ["theta", "point load", "youngs modulus",
      "moment of inertia", "length", "shear modulus", "area"] "kappa" 7
      (fn7 solve_for_k_ev) "Timoshenko->k"
  let m ← add_edge m ["theta", "point load", "youngs modulus",
      "moment of inertia", "length", "kappa", "area"] "shear modulus" 7
      (fn7 solve_for_G_ev) "Timoshenko->G"
  let m ← add_edge m ["theta", "point load", "youngs modulus",
      "moment of inertia", "length", "kappa", "shear modulus"] "area" 7
      (fn7 solve_for_A_ev) "Timoshenko->A"
  return m

/-- The model `create_beam_model` builds, written out. -/
def beamModel (nproots : List ℚ → List ℚ) : Model :=
  ⟨beamLabels,
   [⟨"Timoshenko",
     ["point load", "youngs modulus", "moment of inertia", "length",
      "kappa", "shear modulus", "area"], "theta", 7,
     fn7 timoshenko_beam_deflection_ev⟩,
    ⟨"Timoshenko->P",
     ["theta", "youngs modulus", "moment of inertia", "length", "kappa",
      "shear modulus", "area"], "point load", 7, fn7 solve_for_P_ev⟩,
    ⟨"Timoshenko->E",
     ["theta", "point load", "moment of inertia", "length", "kappa",
      "shear modulus", "area"], "youngs modulus", 7, fn7 solve_for_E_ev⟩,
    ⟨"Timoshenko->I",
     ["theta", "point load", "youngs modulus", "length", "kappa",
      "shear modulus", "area"], "moment of inertia", 7, fn7 solve_for_I_ev⟩,
    ⟨"Timoshenko->L",
     ["theta", "point load", "youngs modulus", "moment of inertia",
      "kappa", "shear modulus", "area"], "length", 7,
     fn7 (solve_for_L_ev nproots)⟩,
    ⟨"Timoshenko->k",
     ["theta", "point load", "youngs modulus", "moment of inertia",
      "length", "shear modulus", "area"], "kappa", 7, fn7 solve_for_k_ev⟩,
    ⟨"Timoshenko->G",
     ["theta", "point load", "youngs modulus", "moment of inertia",
      "length", "kappa", "area"], "shear modulus", 7, fn7 solve_for_G_ev⟩,
    ⟨"Timoshenko->A",
     ["theta", "point load", "youngs modulus", "moment of inertia",
      "length", "kappa", "shear modulus"], "area", 7, fn7 solve_for_A_ev⟩]⟩

/-- Construction succeeds and produces exactly `beamModel`. -/
theorem create_beam_model_eq (nproots : List ℚ → List ℚ) :
    create_beam_model nproots = .ok (beamModel nproots) := rfl

/-- The label/inputs/output skeleton of the eight registered edges. -/
def beamEdgeShape : List (String × List String × String) :=
  [("Timoshenko",
    (["point load", "youngs modulus", "moment of inertia", "length",
      "kappa", "shear modulus", "area"], "theta")),
   ("Timoshenko->P",
    (["theta", "youngs modulus", "moment of inertia", "length", "kappa",
      "shear modulus", "area"], "point load")),
   ("Timoshenko->E",
    (["theta", "point load", "moment of inertia", "length", "kappa",
      "shear modulus", "area"], "youngs modulus")),
   ("Timoshenko->I",
    (["theta", "point load", "youngs modulus", "length", "kappa",
      "shear modulus", "area"], "moment of inertia")),
   ("Timoshenko->L",
    (["theta", "point load", "youngs modulus", "moment of inertia",
      "kappa", "shear modulus", "area"], "length")),
   ("Timoshenko->k",
    (["theta", "point load", "youngs modulus", "moment of inertia",
      "length", "shear modulus", "area"], "kappa")),
   ("Timoshenko->G",
    (["theta", "point load", "youngs modulus", "moment of inertia",
      "length", "kappa", "area"], "shear modulus")),
   ("Timoshenko->A",
    (["theta", "point load", "youngs modulus", "moment of inertia",
      "length", "kappa", "shear modulus"], "area"))]

/-- Projecting the fields shows the edges carry exactly that skeleton. -/
theorem beamModel_shape (nproots : List ℚ → List ℚ) :
    ((beamModel nproots).edges.map fun e => (e.label, e.inputs, e.output))
      = beamEdgeShape := rfl

/-- The known values of the simulation payload, from `run_beam_simulation`
(src/beam_simulation.py lines 13-21), in source order. -/
def beamKnowns : List (String × ℚ) :=
  [("youngs modulus", 2 * 10 ^ 11), ("moment of inertia", 1 / 10 ^ 6),
   ("length", 2), ("kappa", 5 / 6), ("shear modulus", 8 * 10 ^ 10),
   ("area", 1 / 10 ^ 4), ("point load", 1000)]

/-! ### The GUI collaborator (src/beam_gui.py lines 142-169) -/

/-- The form fields of `BeamSimulationGUI`, in the insertion order of
`self.variables` (src/beam_gui.py lines 79-88). -/
def beamGuiVariables : List String :=
  ["point load", "kappa", "youngs modulus", "moment of inertia",
   "shear modulus", "area", "length", "theta"]

/-- Outcome of one press of the run button: either an error dialog with
its message, or a completed run of model construction and
`plot_simulation` on the converted inputs. -/
inductive GuiOutcome where
  | errorDialog (msg : String)
  | ranSimulation (inputs : List (String × ℚ))
deriving DecidableEq

/-- The input-collection loop of `BeamSimulationGUI.run_simulation`
(src/beam_gui.py lines 146-154): walk the fields in order, skip the
target `theta`, convert each entry text with `float` (modelled by the
abstract `parse`), and stop at the first conversion failure with the
dialog message naming the offending variable. -/
def collectInputs (parse : String → Option ℚ) (entry : String → String) :
    List String → Except String (List (String × ℚ))
  | [] => .ok []
  | v :: rest =>
    if v = "theta" then collectInputs parse entry rest
    else
      match parse (entry v) with
      | none => .error ("Invalid number for " ++ v)
      | some x =>
        match collectInputs parse entry rest with
        | .error msg => .error msg
        | .ok tail => .ok ((v, x) :: tail)

/-- `BeamSimulationGUI.run_simulation` (src/beam_gui.py lines 142-169):
if every non-target field converts, the model is built and
`plot_simulation` invoked on the inputs; otherwise the first conversion
failure raises an error dialog and the method returns at once. -/
def BeamSimulationGUI_run_simulation (parse : String → Option ℚ)
    (entry : String → String) : GuiOutcome :=
  match collectInputs parse entry beamGuiVariables with
  | .error msg => .errorDialog msg
  | .ok inputs => .ranSimulation inputs

/-! ### A relational view of resolution, for the determinism claim -/

/-- Modelled from the spec: a legal derivation of a value (and its trace)
for a node, at a given remaining depth, with a given "currently
resolving" set.  `known` mirrors step (a) of the algorithm; `step`
mirrors steps (b), (d): an unvisited, unknown node is produced by one of
its candidate relations whose inputs all derive at depth one less, the
relation's function accepting the input values and the trace collecting
the input traces followed by the relation's label. -/
inductive Derives (M : Model) (knowns : List (String × ℚ)) :
    List String → Nat → String → ℚ × List String → Prop where
  | known (V : List String) (d : Nat) (n : String) (v : ℚ) :
      lookup knowns n = some v → Derives M knowns V d n (v, [])
  | step (V : List String) (d : Nat) (n : String) (e : Edge)
      (vs : Fin e.inputs.length → ℚ)
      (ts : Fin e.inputs.length → List String) (v : ℚ) :
      lookup knowns n = none →
      n ∉ V →
      e ∈ relationsFor M n →
      (∀ i : Fin e.inputs.length,
        Derives M knowns (n :: V) d (e.inputs.get i) (vs i, ts i)) →
      e.fn (List.ofFn vs) = some v →
      Derives M knowns V (d + 1) n (v, (List.ofFn ts).flatten ++ [e.label])

/-! ### Resolver lemmas -/

/-- A known or already-resolved node returns its value at any depth, with
the session untouched. -/
theorem resolveNode_known (M : Model) (d : Nat) (s : Session) (n : String)
    (v : ℚ) (h : lookup s.values n = some v) :
    resolveNode M d s n = .ok (v, s) := by
  cases d <;> simp [resolveNode, h]

/-- Values of a list of labels under the resolved-value map, all-or-
nothing. -/
def lookupAll (m : List (String × ℚ)) : List String → Option (List ℚ)
  | [] => some []
  | i :: rest =>
    match lookup m i with
    | none => none
    | some v =>
      match lookupAll m rest with
      | none => none
      | some vs => some (v :: vs)

/-- When every input is already in the resolved-value map, resolving the
inputs succeeds with those values and leaves the session untouched. -/
theorem resolveInputs_known (M : Model) (d : Nat) (s : Session) :
    ∀ (L : List String) (vs : List ℚ), lookupAll s.values L = some vs →
      resolveInputs (resolveNode M d) s L = .ok (vs, s) := by
  intro L
  induction L with
  | nil => intro vs h; simp [lookupAll] at h; simp [resolveInputs, h.symm]
  | cons i rest ih =>
    intro vs h
    simp only [lookupAll] at h
    cases hi : lookup s.values i with
    | none => rw [hi] at h; exact absurd h (by simp)
    | some v =>
      rw [hi] at h
      cases hr : lookupAll s.values rest with
      | none => rw [hr] at h; exact absurd h (by simp)
      | some vs1 =>
        rw [hr] at h
        simp only [Option.some.injEq] at h
        subst h
        simp only [resolveInputs, resolveNode_known M d s i v hi, ih vs1 hr]

/-- With the target unknown and stuck on the current path, resolving any
input list containing an unknown label fails, provided depth-`d`
resolution can only succeed on knowns (hypothesis `ha`). -/
theorem resolveInputs_stuck (M : Model) (knowns : List (String × ℚ))
    (t : String) (d : Nat)
    (ha : ∀ (s : Session) (n : String) (v : ℚ) (s1 : Session),
      s.values = knowns → t ∈ s.visiting →
      resolveNode M d s n = .ok (v, s1) → lookup knowns n = some v ∧ s1 = s) :
    ∀ (L : List String) (s : Session) (u : String),
      s.values = knowns → t ∈ s.visiting → u ∈ L → lookup knowns u = none →
      ∃ err, resolveInputs (resolveNode M d) s L = .error err := by
  intro L
  induction L with
  | nil => intro s u _ _ hu _; cases hu
  | cons i rest ih =>
    intro s u hsv hvis hu hunk
    cases hres : resolveNode M d s i with
    | error err => exact ⟨err, by simp [resolveInputs, hres]⟩
    | ok p =>
      obtain ⟨v, s1⟩ := p
      obtain ⟨hknown, heq⟩ := ha s i v s1 hsv hvis hres
      subst heq
      have hui : u ≠ i := by
        intro h; rw [h, hknown] at hunk; cases hunk
      have hur : u ∈ rest := by
        cases List.mem_cons.mp hu with
        | inl h => exact absurd h hui
        | inr h => exact h
      obtain ⟨err, herr⟩ := ih s1 u hsv hvis hur hunk
      exact ⟨err, by simp [resolveInputs, hres, herr]⟩

/-- Under the same hypothesis, every candidate relation whose inputs
include an unknown label fails, so trying them all ends in
`UnresolvedNodeError`. -/
theorem tryEdges_stuck (M : Model) (knowns : List (String × ℚ))
    (t : String) (d : Nat)
    (ha : ∀ (s : Session) (n : String) (v : ℚ) (s1 : Session),
      s.values = knowns → t ∈ s.visiting →
      resolveNode M d s n = .ok (v, s1) → lookup knowns n = some v ∧ s1 = s) :
    ∀ (es : List Edge) (s : Session) (n : String),
      s.values = knowns → t ∈ s.visiting →
      (∀ e ∈ es, ∃ u, u ∈ e.inputs ∧ lookup knowns u = none) →
      ∃ err, tryEdges (resolveNode M d) s n es = .error err := by
  intro es
  induction es with
  | nil => intro s n _ _ _; exact ⟨.unresolved n, rfl⟩
  | cons e rest ih =>
    intro s n hsv hvis hall
    obtain ⟨u, hu, hunk⟩ := hall e (List.mem_cons_self e rest)
    obtain ⟨err0, herr0⟩ :=
      resolveInputs_stuck M knowns t d ha e.inputs s u hsv hvis hu hunk
    obtain ⟨err, herr⟩ := ih s n hsv hvis
      (fun e1 he1 => hall e1 (List.mem_cons_of_mem e he1))
    exact ⟨err, by simp [tryEdges, herr0, herr]⟩

/-- The key invariant: while an unknown target `t` that every relation
either consumes or produces sits on the current path, resolution can
succeed only on nodes that are already known, and then leaves the session
untouched. -/
theorem resolveNode_blocked (M : Model) (knowns : List (String × ℚ))
    (t : String) (H1 : lookup knowns t = none)
    (H2 : ∀ e ∈ M.edges, t ∈ e.inputs ∨ e.output = t) :
    ∀ (d : Nat) (s : Session) (n : String) (v : ℚ) (s1 : Session),
      s.values = knowns → t ∈ s.visiting →
      resolveNode M d s n = .ok (v, s1) → lookup knowns n = some v ∧ s1 = s := by
  intro d
  induction d with
  | zero =>
    intro s n v s1 hsv hvis hres
    rw [resolveNode] at hres
    cases hl : lookup s.values n with
    | some w =>
      rw [hl] at hres
      simp only [Except.ok.injEq, Prod.mk.injEq] at hres
      rw [← hsv, hl, hres.1, hres.2]
      exact ⟨rfl, rfl⟩
    | none =>
      rw [hl] at hres
      by_cases hv : n ∈ s.visiting <;> simp [hv] at hres
  | succ d ih =>
    intro s n v s1 hsv hvis hres
    rw [resolveNode] at hres
    cases hl : lookup s.values n with
    | some w =>
      rw [hl] at hres
      simp only [Except.ok.injEq, Prod.mk.injEq] at hres
      rw [← hsv, hl, hres.1, hres.2]
      exact ⟨rfl, rfl⟩
    | none =>
      rw [hl] at hres
      by_cases hv : n ∈ s.visiting
      · simp [hv] at hres
      · simp only [hv, if_false] at hres
        have hnt : n ≠ t := fun h => hv (h ▸ hvis)
        obtain ⟨err, herr⟩ := tryEdges_stuck M knowns t d ih
          (relationsFor M n) ⟨s.values, s.trace, n :: s.visiting⟩ n hsv
          (List.mem_cons_of_mem n hvis)
          (by
            intro e he
            have hmem := List.mem_filter.mp he
            have hout : e.output = n := by
              have := hmem.2; simpa using this
            cases H2 e hmem.1 with
            | inl h => exact ⟨t, h, H1⟩
            | inr h => exact absurd (hout.symm.trans h) hnt)
        rw [herr] at hres
        cases hres

/-- Modelled from the spec: if the target is unknown and every relation
producing it has an unknown input, while every relation in the model
either consumes or produces the target, resolution fails with
`UnresolvedNodeError` for the target at every finite depth. -/
theorem resolve_unreachable (M : Model) (knowns : List (String × ℚ))
    (t : String) (H1 : lookup knowns t = none)
    (H2 : ∀ e ∈ M.edges, t ∈ e.inputs ∨ e.output = t)
    (H3 : ∀ e ∈ M.edges, e.output = t →
      ∃ u, u ∈ e.inputs ∧ lookup knowns u = none) :
    ∀ d, resolve M knowns t d = .error (.unresolved t) := by
  intro d
  have hstuck : ∃ err, resolveNode M d ⟨knowns, [], []⟩ t = .error err := by
    cases d with
    | zero => exact ⟨.depth, by simp [resolveNode, H1]⟩
    | succ d =>
      obtain ⟨err, herr⟩ := tryEdges_stuck M knowns t d
        (resolveNode_blocked M knowns t H1 H2 d)
        (relationsFor M t) ⟨knowns, [], [t]⟩ t rfl (List.mem_singleton.mpr rfl)
        (by
          intro e he
          have hmem := List.mem_filter.mp he
          exact H3 e hmem.1 (by simpa using hmem.2))
      exact ⟨err, by simp [resolveNode, H1, herr]⟩
  obtain ⟨err, herr⟩ := hstuck
  simp [resolve, herr]

/-- Every edge of the beam model, seen through its structural skeleton. -/
theorem mem_shape_of_mem_edges (nproots : List ℚ → List ℚ) (e : Edge)
    (he : e ∈ (beamModel nproots).edges) :
    (e.label, e.inputs, e.output) ∈ beamEdgeShape := by
  have h := List.mem_map_of_mem (fun e => (e.label, e.inputs, e.output)) he
  rwa [beamModel_shape nproots] at h

/-- Every registered node appears in every edge's inputs or as its
output: the eight Timoshenko relations are mutually referential. -/
theorem beam_edge_cover :
    ∀ t ∈ beamLabels, ∀ p ∈ beamEdgeShape, t ∈ p.2.1 ∨ p.2.2 = t := by
  decide

/-- Any two distinct registered nodes: each edge producing the first
consumes the second. -/
theorem beam_edge_cover2 :
    ∀ t ∈ beamLabels, ∀ u ∈ beamLabels, u ≠ t →
      ∀ p ∈ beamEdgeShape, p.2.2 = t → u ∈ p.2.1 := by
  decide

/-- C4: in the model built by `create_beam_model`, whose relation pairs
are mutually referential, resolving any target that is not known while
some other node is also unknown terminates with `UnresolvedNodeError`
for every finite `max_depth` (the resolver is a total function, so there
is no infinite recursion). -/
theorem C4_cycle_safety (nproots : List ℚ → List ℚ)
    (knowns : List (String × ℚ)) (t : String) (d : Nat)
    (ht : t ∈ beamLabels) (hunk : lookup knowns t = none)
    (hother : ∃ u, u ∈ beamLabels ∧ u ≠ t ∧ lookup knowns u = none) :
    resolve (beamModel nproots) knowns t d = .error (.unresolved t) := by
  obtain ⟨u, hu, hune, huunk⟩ := hother
  refine resolve_unreachable (beamModel nproots) knowns t hunk ?_ ?_ d
  · intro e he
    exact beam_edge_cover t ht _ (mem_shape_of_mem_edges nproots e he)
  · intro e he hout
    exact ⟨u, beam_edge_cover2 t ht u hu hune _
      (mem_shape_of_mem_edges nproots e he) hout, huunk⟩

/-- Witness for C4: with nothing known, resolving `theta` at depth 5
fails with `UnresolvedNodeError`. -/
theorem C4_cycle_safety_witness :
    resolve (beamModel (fun _ => [])) [] "theta" 5
      = .error (.unresolved "theta") :=
  C4_cycle_safety (fun _ => []) [] "theta" 5 (by decide) rfl
    ⟨"point load", by decide, by decide, rfl⟩

/-- C1: with the seven beam knowns and target `theta`, any depth bound of
at least one resolves through the single direct Timoshenko relation,
yielding `timoshenko_beam_deflection` at those arguments — which equals
`delta_bending + delta_shear` — with a single-step trace. -/
theorem C1_beam_deflection_resolution (nproots : List ℚ → List ℚ) (d : Nat)
    (hd : 1 ≤ d) :
    resolve (beamModel nproots) beamKnowns "theta" d =
      .ok (timoshenko_beam_deflection (1000 : ℚ) (2 * 10 ^ 11) (1 / 10 ^ 6) 2
          (5 / 6) (8 * 10 ^ 10) (1 / 10 ^ 4), ["Timoshenko"]) ∧
    timoshenko_beam_deflection (1000 : ℚ) (2 * 10 ^ 11) (1 / 10 ^ 6) 2 (5 / 6)
        (8 * 10 ^ 10) (1 / 10 ^ 4)
      = 1000 * 2 ^ 3 / (3 * (2 * 10 ^ 11) * (1 / 10 ^ 6))
        + 1000 * 2 / (5 / 6 * (8 * 10 ^ 10) * (1 / 10 ^ 4)) := by
  constructor
  · obtain ⟨d1, rfl⟩ : ∃ d1, d = d1 + 1 := ⟨d - 1, by omega⟩
    have hinputs : resolveInputs (resolveNode (beamModel nproots) d1)
        ⟨beamKnowns, [], ["theta"]⟩
        ["point load", "youngs modulus", "moment of inertia", "length",
         "kappa", "shear modulus", "area"]
        = .ok ([1000, 2 * 10 ^ 11, 1 / 10 ^ 6, 2, 5 / 6, 8 * 10 ^ 10,
            1 / 10 ^ 4], ⟨beamKnowns, [], ["theta"]⟩) :=
      resolveInputs_known _ _ _ _ _ rfl
    have hfn : fn7 timoshenko_beam_deflection_ev
        [1000, 2 * 10 ^ 11, 1 / 10 ^ 6, 2, 5 / 6, 8 * 10 ^ 10, 1 / 10 ^ 4]
        = some (timoshenko_beam_deflection (1000 : ℚ) (2 * 10 ^ 11)
            (1 / 10 ^ 6) 2 (5 / 6) (8 * 10 ^ 10) (1 / 10 ^ 4)) := by
      show timoshenko_beam_deflection_ev 1000 (2 * 10 ^ 11) (1 / 10 ^ 6) 2
          (5 / 6) (8 * 10 ^ 10) (1 / 10 ^ 4) = _
      rw [timoshenko_beam_deflection_ev, if_neg (by norm_num),
        if_neg (by norm_num), timoshenko_beam_deflection]
    have hnode : resolveNode (beamModel nproots) (d1 + 1)
        ⟨beamKnowns, [], []⟩ "theta"
        = .ok (timoshenko_beam_deflection (1000 : ℚ) (2 * 10 ^ 11)
            (1 / 10 ^ 6) 2 (5 / 6) (8 * 10 ^ 10) (1 / 10 ^ 4),
          commit ⟨beamKnowns, [], ["theta"]⟩ "theta"
            (timoshenko_beam_deflection (1000 : ℚ) (2 * 10 ^ 11) (1 / 10 ^ 6)
              2 (5 / 6) (8 * 10 ^ 10) (1 / 10 ^ 4)) "Timoshenko") := by
      have step1 : resolveNode (beamModel nproots) (d1 + 1)
          ⟨beamKnowns, [], []⟩ "theta"
          = tryEdges (resolveNode (beamModel nproots) d1)
            ⟨beamKnowns, [], ["theta"]⟩ "theta"
            [⟨"Timoshenko",
              ["point load", "youngs modulus", "moment of inertia", "length",
               "kappa", "shear modulus", "area"], "theta", 7,
              fn7 timoshenko_beam_deflection_ev⟩] := rfl
      rw [step1]
      simp only [tryEdges, hinputs, hfn]
    simp only [resolve, hnode, commit]
    rfl
  · rw [timoshenko_beam_deflection]

/-- Witness for C1 at depth exactly one. -/
theorem C1_beam_deflection_resolution_witness :
    resolve (beamModel (fun _ => [])) beamKnowns "theta" 1 =
      .ok (timoshenko_beam_deflection (1000 : ℚ) (2 * 10 ^ 11) (1 / 10 ^ 6) 2
          (5 / 6) (8 * 10 ^ 10) (1 / 10 ^ 4), ["Timoshenko"]) ∧
    timoshenko_beam_deflection (1000 : ℚ) (2 * 10 ^ 11) (1 / 10 ^ 6) 2 (5 / 6)
        (8 * 10 ^ 10) (1 / 10 ^ 4)
      = 1000 * 2 ^ 3 / (3 * (2 * 10 ^ 11) * (1 / 10 ^ 6))
        + 1000 * 2 / (5 / 6 * (8 * 10 ^ 10) * (1 / 10 ^ 4)) :=
  C1_beam_deflection_resolution (fun _ => []) 1 (le_refl 1)

/-- C10: the model built by `create_beam_model` registers exactly the
eight quantity nodes and the eight Timoshenko relations; the material and
geometry helpers are never registered, no poisson-ratio or radius node
exists, and consequently a quantity such as the area can never be derived
from a radius value by any resolution over this model. -/
theorem C10_only_timoshenko_edges (nproots : List ℚ → List ℚ) :
    (beamModel nproots).nodes = beamLabels ∧
    beamLabels = ["point load", "kappa", "youngs modulus",
      "moment of inertia", "shear modulus", "area", "length", "theta"] ∧
    "radius" ∉ (beamModel nproots).nodes ∧
    "poisson ratio" ∉ (beamModel nproots).nodes ∧
    ((beamModel nproots).edges.map fun e => (e.label, e.inputs, e.output))
      = beamEdgeShape ∧
    (∀ (r : ℚ) (d : Nat),
      resolve (beamModel nproots) [("radius", r)] "area" d
        = .error (.unresolved "area")) := by
  refine ⟨rfl, rfl, show "radius" ∉ beamLabels by decide,
    show "poisson ratio" ∉ beamLabels by decide, rfl, ?_⟩
  intro r d
  refine resolve_unreachable (beamModel nproots) [("radius", r)] "area"
    rfl ?_ ?_ d
  · intro e he
    exact beam_edge_cover "area" (by decide) _
      (mem_shape_of_mem_edges nproots e he)
  · intro e he hout
    exact ⟨"theta", beam_edge_cover2 "area" (by decide) "theta" (by decide)
      (by decide) _ (mem_shape_of_mem_edges nproots e he) hout, rfl⟩

/-- C9: each of the eight registered nodes has exactly one relation
producing it, so first-success fallback never has a second candidate to
try on this model. -/
theorem C9_single_producer (nproots : List ℚ → List ℚ) (n : String)
    (hn : n ∈ beamLabels) :
    (relationsFor (beamModel nproots) n).length = 1 := by
  simp only [beamLabels, List.mem_cons, List.not_mem_nil, or_false] at hn
  rcases hn with rfl | rfl | rfl | rfl | rfl | rfl | rfl | rfl <;> rfl

/-- Witness for C9 at the `theta` node. -/
theorem C9_single_producer_witness :
    (relationsFor (beamModel (fun _ => [])) "theta").length = 1 :=
  C9_single_producer (fun _ => []) "theta" (by decide)

/-- C6: registration of the beam model succeeds — in particular every
arity check passes — and every registered relation declares exactly seven
inputs, matching the arity of the seven-parameter function it binds. -/
theorem C6_arity_invariant (nproots : List ℚ → List ℚ) :
    create_beam_model nproots = .ok (beamModel nproots) ∧
    ((beamModel nproots).edges.all
      (fun e => e.inputs.length == e.arity && e.arity == 7)) = true :=
  ⟨rfl, rfl⟩

/-- The collection loop stops at the first non-parsing non-target field
with the dialog message naming it. -/
theorem collectInputs_first_failure (parse : String → Option ℚ)
    (entry : String → String) :
    ∀ L : List String, (∃ v, v ∈ L ∧ v ≠ "theta" ∧ parse (entry v) = none) →
      ∃ v, v ∈ L ∧ v ≠ "theta" ∧ parse (entry v) = none ∧
        collectInputs parse entry L = .error ("Invalid number for " ++ v) := by
  intro L
  induction L with
  | nil => rintro ⟨v, hv, _⟩; cases hv
  | cons w rest ih =>
    rintro ⟨v, hv, hvt, hvp⟩
    by_cases hw : w = "theta"
    · subst hw
      have hvr : v ∈ rest := by
        cases List.mem_cons.mp hv with
        | inl h => exact absurd h hvt
        | inr h => exact h
      obtain ⟨u, hu, hut, hup, hcol⟩ := ih ⟨v, hvr, hvt, hvp⟩
      exact ⟨u, List.mem_cons_of_mem _ hu, hut, hup,
        by simp [collectInputs, hcol]⟩
    · cases hp : parse (entry w) with
      | none =>
        exact ⟨w, List.mem_cons_self w rest, hw, hp,
          by simp [collectInputs, hw, hp]⟩
      | some x =>
        have hvr : v ∈ rest := by
          cases List.mem_cons.mp hv with
          | inl h => subst h; rw [hp] at hvp; cases hvp
          | inr h => exact h
        obtain ⟨u, hu, hut, hup, hcol⟩ := ih ⟨v, hvr, hvt, hvp⟩
        exact ⟨u, List.mem_cons_of_mem _ hu, hut, hup,
          by simp [collectInputs, hw, hp, hcol]⟩

/-- C7: whenever some non-target form field fails numeric conversion,
`BeamSimulationGUI.run_simulation` itself reports the failure with an
error dialog naming an offending variable and returns without building
the model or invoking `plot_simulation`. -/
theorem C7_gui_validation (parse : String → Option ℚ)
    (entry : String → String)
    (hbad : ∃ v, v ∈ beamGuiVariables ∧ v ≠ "theta" ∧
      parse (entry v) = none) :
    ∃ v, v ∈ beamGuiVariables ∧ v ≠ "theta" ∧ parse (entry v) = none ∧
      BeamSimulationGUI_run_simulation parse entry
        = .errorDialog ("Invalid number for " ++ v) := by
  obtain ⟨v, hv, hvt, hvp, hcol⟩ :=
    collectInputs_first_failure parse entry _ hbad
  exact ⟨v, hv, hvt, hvp, by simp [BeamSimulationGUI_run_simulation, hcol]⟩

/-- Witness for C7: a parser rejecting everything leads to the dialog. -/
theorem C7_gui_validation_witness :
    ∃ v, v ∈ beamGuiVariables ∧ v ≠ "theta" ∧
      (fun _ : String => (none : Option ℚ)) (id v) = none ∧
      BeamSimulationGUI_run_simulation (fun _ => none) id
        = .errorDialog ("Invalid number for " ++ v) :=
  C7_gui_validation (fun _ => none) id
    ⟨"point load", by decide, by decide, rfl⟩

/-- Any two members of a list of length at most one coincide. -/
theorem mem_eq_of_length_le_one {α : Type} {l : List α} (h : l.length ≤ 1)
    {a b : α} (ha : a ∈ l) (hb : b ∈ l) : a = b := by
  match l with
  | [] => cases ha
  | [x] =>
    rw [List.mem_singleton] at ha hb
    rw [ha, hb]
  | x :: y :: r =>
    simp only [List.length_cons] at h
    omega

/-- If the registered outputs are pairwise distinct, no node has two
candidate relations. -/
theorem filter_output_length_le_one (l : List Edge)
    (h : (l.map (fun e => e.output)).Nodup) (n : String) :
    (l.filter (fun e => decide (e.output = n))).length ≤ 1 := by
  induction l with
  | nil => simp
  | cons e rest ih =>
    simp only [List.map_cons, List.nodup_cons] at h
    by_cases he : e.output = n
    · rw [List.filter_cons_of_pos (by simp [he])]
      have hnil : rest.filter (fun x => decide (x.output = n)) = [] := by
        rw [List.filter_eq_nil_iff]
        intro x hx hxn
        simp only [decide_eq_true_eq] at hxn
        apply h.1
        have hmem : x.output ∈ rest.map (fun e => e.output) :=
          List.mem_map_of_mem _ hx
        rwa [hxn, ← he] at hmem
      simp [hnil]
    · rw [List.filter_cons_of_neg (by simp [he])]
      exact ih h.2

/-- The eight outputs of the beam model are pairwise distinct. -/
theorem beam_outputs_nodup (nproots : List ℚ → List ℚ) :
    ((beamModel nproots).edges.map (fun e => e.output)).Nodup := by
  show (["theta", "point load", "youngs modulus", "moment of inertia",
    "length", "kappa", "shear modulus", "area"] : List String).Nodup
  decide

/-- Single-producer bound for every label, known or not. -/
theorem beam_relationsFor_le_one (nproots : List ℚ → List ℚ) (n : String) :
    (relationsFor (beamModel nproots) n).length ≤ 1 :=
  filter_output_length_le_one _ (beam_outputs_nodup nproots) n

/-- Determinism of derivations over any single-producer model: two
derivations with the same knowns, path, depth and node agree on the value
and the trace. -/
theorem derives_det (M : Model) (knowns : List (String × ℚ))
    (hM : ∀ n, (relationsFor M n).length ≤ 1) :
    ∀ (V : List String) (d : Nat) (n : String) (p q : ℚ × List String),
      Derives M knowns V d n p → Derives M knowns V d n q → p = q := by
  intro V d n p q h1
  induction h1 generalizing q with
  | known V d n v hv =>
    intro h2
    cases h2 with
    | known _ _ _ w hw =>
      rw [hv] at hw
      injection hw with h
      rw [h]
    | step _ _ _ e vs ts w hnone => rw [hv] at hnone; cases hnone
  | step V d n e vs ts v hnone hnv he hins hfn ih =>
    intro h2
    cases h2 with
    | known _ _ _ w hw => rw [hw] at hnone; cases hnone
    | step _ _ _ e2 vs2 ts2 w hnone2 hnv2 he2 hins2 hfn2 =>
      have hee : e = e2 := mem_eq_of_length_le_one (hM n) he he2
      subst hee
      have hvt : ∀ i, (vs i, ts i) = (vs2 i, ts2 i) := fun i => ih i _ (hins2 i)
      have hvs : vs = vs2 := funext fun i => congrArg Prod.fst (hvt i)
      have hts : ts = ts2 := funext fun i => congrArg Prod.snd (hvt i)
      subst hvs
      subst hts
      rw [hfn] at hfn2
      injection hfn2 with h
      rw [h]

/-- C8: the relation functions of the beam model are Lean functions, pure
by construction, and resolution over the model is deterministic — any two
derivations from the same knowns, target and depth bound produce the same
value and the same trace. -/
theorem C8_determinism (nproots : List ℚ → List ℚ)
    (knowns : List (String × ℚ)) (V : List String) (d : Nat) (t : String)
    (p q : ℚ × List String)
    (hp : Derives (beamModel nproots) knowns V d t p)
    (hq : Derives (beamModel nproots) knowns V d t q) : p = q :=
  derives_det (beamModel nproots) knowns
    (beam_relationsFor_le_one nproots) V d t p q hp hq

/-- Witness for C8 on a known target. -/
theorem C8_determinism_witness :
    ((1 : ℚ), ([] : List String)) = ((1 : ℚ), ([] : List String)) :=
  C8_determinism (fun _ => []) [("theta", 1)] [] 0 "theta" _ _
    (Derives.known [] 0 "theta" 1 rfl) (Derives.known [] 0 "theta" 1 rfl)

/-- C3: for positive parameters, each registered inverse relation
recovers its variable exactly (hence within relative tolerance `1e-9`)
from the forward deflection and the other six parameters; the length
inverse recovers `L` whenever the root finder reports real roots of the
cubic including `L`. -/
theorem C3_round_trip (P E I L k G A theta : ℝ)
    (hP : 0 < P) (hE : 0 < E) (hI : 0 < I) (hL : 0 < L) (hk : 0 < k)
    (hG : 0 < G) (hA : 0 < A)
    (htheta : theta = timoshenko_beam_deflection P E I L k G A) :
    solve_for_P_from_timoshenko theta E I L k G A = P ∧
    solve_for_E_from_timoshenko theta P I L k G A = E ∧
    solve_for_I_from_timoshenko theta P E L k G A = I ∧
    solve_for_k_from_timoshenko theta P E I L G A = k ∧
    solve_for_G_from_timoshenko theta P E I L k A = G ∧
    solve_for_A_from_timoshenko theta P E I L k G = A ∧
    (∀ nproots : List ℝ → List ℝ,
      (∀ r ∈ nproots (timoshenko_L_coeffs theta P E I k G A),
        timoshenko_L_cubic theta P E I k G A r = 0) →
      L ∈ nproots (timoshenko_L_coeffs theta P E I k G A) →
      solve_for_L_from_timoshenko nproots theta P E I k G A = L) := by
  subst htheta
  have hsubShear : timoshenko_beam_deflection P E I L k G A
      - P * L / (k * G * A) = P * L ^ 3 / (3 * E * I) := by
    rw [timoshenko_beam_deflection]; ring
  have hsubBend : timoshenko_beam_deflection P E I L k G A
      - P * L ^ 3 / (3 * E * I) = P * L / (k * G * A) := by
    rw [timoshenko_beam_deflection]; ring
  refine ⟨?_, ?_, ?_, ?_, ?_, ?_, ?_⟩
  · rw [solve_for_P_from_timoshenko, timoshenko_beam_deflection,
      div_eq_iff (by positivity : L ^ 3 / (3 * E * I) + L / (k * G * A) ≠ 0)]
    ring
  · rw [solve_for_E_from_timoshenko, hsubShear,
      div_eq_iff (by positivity : (3 : ℝ) * I * (P * L ^ 3 / (3 * E * I)) ≠ 0)]
    field_simp
    ring
  · rw [solve_for_I_from_timoshenko, hsubShear,
      div_eq_iff (by positivity : (3 : ℝ) * E * (P * L ^ 3 / (3 * E * I)) ≠ 0)]
    field_simp
    ring
  · rw [solve_for_k_from_timoshenko, hsubBend,
      div_eq_iff (by positivity : G * A * (P * L / (k * G * A)) ≠ 0)]
    field_simp
    ring
  · rw [solve_for_G_from_timoshenko, hsubBend,
      div_eq_iff (by positivity : k * A * (P * L / (k * G * A)) ≠ 0)]
    field_simp
    ring
  · rw [solve_for_A_from_timoshenko, hsubBend,
      div_eq_iff (by positivity : k * G * (P * L / (k * G * A)) ≠ 0)]
    field_simp
    ring
  · intro nproots hroots hLmem
    rw [solve_for_L_from_timoshenko]
    have huniq : ∀ x ∈ nproots (timoshenko_L_coeffs
        (timoshenko_beam_deflection P E I L k G A) P E I k G A),
        0 < x → x = L := by
      intro x hx hxpos
      have hcub := hroots x hx
      rw [timoshenko_L_cubic, timoshenko_beam_deflection] at hcub
      have ha : 0 < P / (3 * E * I) := by positivity
      have hc : 0 < P / (k * G * A) := by positivity
      have hLc : P / (3 * E * I) * x ^ 3 + P / (k * G * A) * x
          = P / (3 * E * I) * L ^ 3 + P / (k * G * A) * L := by
        have h1 : P * L ^ 3 / (3 * E * I) = P / (3 * E * I) * L ^ 3 := by ring
        have h2 : P * L / (k * G * A) = P / (k * G * A) * L := by ring
        linarith [hcub, h1, h2]
      rcases lt_trichotomy x L with hlt | heq | hgt
      · exfalso
        have h3 : x ^ 3 < L ^ 3 :=
          pow_lt_pow_left₀ hlt hxpos.le (by norm_num)
        have := mul_lt_mul_of_pos_left h3 ha
        have := mul_lt_mul_of_pos_left hlt hc
        linarith
      · exact heq
      · exfalso
        have h3 : L ^ 3 < x ^ 3 :=
          pow_lt_pow_left₀ hgt hL.le (by norm_num)
        have := mul_lt_mul_of_pos_left h3 ha
        have := mul_lt_mul_of_pos_left hgt hc
        linarith
    have hLfilter : L ∈ (nproots (timoshenko_L_coeffs
        (timoshenko_beam_deflection P E I L k G A) P E I k G A)).filter
        (fun r => decide (0 < r)) :=
      List.mem_filter.mpr ⟨hLmem, by simpa using hL⟩
    cases hf : (nproots (timoshenko_L_coeffs
        (timoshenko_beam_deflection P E I L k G A) P E I k G A)).filter
        (fun r => decide (0 < r)) with
    | nil => rw [hf] at hLfilter; cases hLfilter
    | cons r0 rest =>
      have hr0 := List.mem_filter.mp (hf ▸ List.mem_cons_self r0 rest)
      have hr0L : r0 = L := huniq r0 hr0.1 (by simpa using hr0.2)
      rw [List.headD_cons, hr0L]

/-- Witness for C3 at unit parameters. -/
theorem C3_round_trip_witness :
    solve_for_P_from_timoshenko
      (timoshenko_beam_deflection (1 : ℝ) 1 1 1 1 1 1) 1 1 1 1 1 1 = 1 ∧
    solve_for_E_from_timoshenko
      (timoshenko_beam_deflection (1 : ℝ) 1 1 1 1 1 1) 1 1 1 1 1 1 = 1 ∧
    solve_for_I_from_timoshenko
      (timoshenko_beam_deflection (1 : ℝ) 1 1 1 1 1 1) 1 1 1 1 1 1 = 1 ∧
    solve_for_k_from_timoshenko
      (timoshenko_beam_deflection (1 : ℝ) 1 1 1 1 1 1) 1 1 1 1 1 1 = 1 ∧
    solve_for_G_from_timoshenko
      (timoshenko_beam_deflection (1 : ℝ) 1 1 1 1 1 1) 1 1 1 1 1 1 = 1 ∧
    solve_for_A_from_timoshenko
      (timoshenko_beam_deflection (1 : ℝ) 1 1 1 1 1 1) 1 1 1 1 1 1 = 1 ∧
    (∀ nproots : List ℝ → List ℝ,
      (∀ r ∈ nproots (timoshenko_L_coeffs
          (timoshenko_beam_deflection (1 : ℝ) 1 1 1 1 1 1) 1 1 1 1 1 1),
        timoshenko_L_cubic
          (timoshenko_beam_deflection (1 : ℝ) 1 1 1 1 1 1) 1 1 1 1 1 1 r = 0) →
      (1 : ℝ) ∈ nproots (timoshenko_L_coeffs
          (timoshenko_beam_deflection (1 : ℝ) 1 1 1 1 1 1) 1 1 1 1 1 1) →
      solve_for_L_from_timoshenko nproots
        (timoshenko_beam_deflection (1 : ℝ) 1 1 1 1 1 1) 1 1 1 1 1 1 = 1) :=
  C3_round_trip 1 1 1 1 1 1 1 (timoshenko_beam_deflection (1 : ℝ) 1 1 1 1 1 1)
    one_pos one_pos one_pos one_pos one_pos one_pos one_pos rfl

/-- Counterexample to C2: with `theta = -4/3` and unit parameters the
cubic has `-1` as its only real root — no real positive root exists — yet
`solve_for_L_from_timoshenko` returns the ordinary number `0` instead of
signalling a domain error (the spec-side selector signals `none`
there). -/
theorem C2_counterexample :
    (∀ x : ℝ, timoshenko_L_cubic (-4 / 3) 1 1 1 1 1 1 x = 0 → x ≤ 0) ∧
    timoshenko_L_cubic (-4 / 3 : ℝ) 1 1 1 1 1 1 (-1) = 0 ∧
    solve_for_L_from_timoshenko (fun _ => [(-1 : ℝ)]) (-4 / 3) 1 1 1 1 1 1
      = 0 ∧
    solve_for_L_spec (fun _ => [(-1 : ℝ)]) (-4 / 3) 1 1 1 1 1 1 = none := by
  refine ⟨?_, by rw [timoshenko_L_cubic]; norm_num, ?_, ?_⟩
  · intro x hx
    rw [timoshenko_L_cubic] at hx
    norm_num at hx
    by_contra hpos
    push_neg at hpos
    nlinarith [pow_pos hpos 3]
  · rw [solve_for_L_from_timoshenko]
    norm_num [List.filter_cons]
  · rw [solve_for_L_spec]
    norm_num [List.filter_cons]

/-- C2 as amended: the length inverse selects exactly one numeric answer
— the first real positive root in the order the root finder produced —
and on inputs with no real positive root it returns `0` (it does not
signal a domain error). -/
theorem C2_root_selection (nproots : List ℝ → List ℝ)
    (theta P E I k G A : ℝ)
    (hroots : ∀ r ∈ nproots (timoshenko_L_coeffs theta P E I k G A),
      timoshenko_L_cubic theta P E I k G A r = 0) :
    ((∃ r ∈ nproots (timoshenko_L_coeffs theta P E I k G A), 0 < r) →
      0 < solve_for_L_from_timoshenko nproots theta P E I k G A ∧
      timoshenko_L_cubic theta P E I k G A
        (solve_for_L_from_timoshenko nproots theta P E I k G A) = 0) ∧
    ((∀ r ∈ nproots (timoshenko_L_coeffs theta P E I k G A), ¬ 0 < r) →
      solve_for_L_from_timoshenko nproots theta P E I k G A = 0) := by
  constructor
  · rintro ⟨r, hr, hrpos⟩
    rw [solve_for_L_from_timoshenko]
    have hrf : r ∈ (nproots (timoshenko_L_coeffs theta P E I k G A)).filter
        (fun r => decide (0 < r)) :=
      List.mem_filter.mpr ⟨hr, by simpa using hrpos⟩
    cases hf : (nproots (timoshenko_L_coeffs theta P E I k G A)).filter
        (fun r => decide (0 < r)) with
    | nil => rw [hf] at hrf; cases hrf
    | cons r0 rest =>
      have hr0 := List.mem_filter.mp (hf ▸ List.mem_cons_self r0 rest)
      rw [List.headD_cons]
      exact ⟨by simpa using hr0.2, hroots r0 hr0.1⟩
  · intro hnone
    rw [solve_for_L_from_timoshenko]
    have hnil : (nproots (timoshenko_L_coeffs theta P E I k G A)).filter
        (fun r => decide (0 < r)) = [] := by
      rw [List.filter_eq_nil_iff]
      intro x hx
      simpa using hnone x hx
    rw [hnil]
    rfl

/-- Witness for the amended C2 with the root finder reporting the root
`1` of the unit-parameter cubic at `theta = 4/3`. -/
theorem C2_root_selection_witness :
    0 < solve_for_L_from_timoshenko (fun _ => [(1 : ℝ)]) (4 / 3) 1 1 1 1 1 1 ∧
    timoshenko_L_cubic (4 / 3 : ℝ) 1 1 1 1 1 1
      (solve_for_L_from_timoshenko (fun _ => [(1 : ℝ)]) (4 / 3) 1 1 1 1 1 1)
      = 0 :=
  (C2_root_selection (fun _ => [(1 : ℝ)]) (4 / 3) 1 1 1 1 1 1
    (by
      intro r hr
      rw [List.mem_singleton] at hr
      rw [hr, timoshenko_L_cubic]
      norm_num)).1
    ⟨1, List.mem_singleton.mpr rfl, one_pos⟩

/-- Counterexample to C5: at `E = 0` (with `G ≠ 0`, `A ≠ 0` and `theta`
different from the embedded value of `P*L^3/(3*E*I)`) the shear-
coefficient inverse still divides by zero, and at
`theta = P*L/(k*G*A)` with unit parameters the shear-modulus inverse
does not signal any domain error — it returns `3/2` — because its
singularity actually sits at `theta = P*L^3/(3*E*I)`. -/
theorem C5_counterexample :
    ((1 : ℚ) ≠ 0 ∧ (1 : ℚ) ≠ 1 * 1 ^ 3 / (3 * 0 * 1) ∧
      solve_for_k_ev 1 1 0 1 1 1 1 = none) ∧
    ((1 : ℚ) = 1 * 1 / (1 * 1 * 1) ∧
      solve_for_G_ev 1 1 1 1 1 1 1 = some (3 / 2)) := by
  refine ⟨⟨one_ne_zero, by norm_num, ?_⟩, ⟨by norm_num, ?_⟩⟩
  · rw [solve_for_k_ev, if_pos (by norm_num)]
  · rw [solve_for_G_ev, if_neg (by norm_num), if_neg (by norm_num)]
    norm_num

/-- C5 as amended: each inverse is well-defined exactly away from its
singularities — for `solve_for_k` these are `E = 0`, `I = 0`, `G*A = 0`
and `theta = P*L^3/(3*E*I)`; for `solve_for_E` and `solve_for_I` the
subtracted term makes the singular point `theta = P*L/(k*G*A)`; for
`solve_for_G` and `solve_for_A` it is `theta = P*L^3/(3*E*I)`.  At a
singular point the evaluation signals a division-by-zero domain error
(`none`), and the resolver catches a `none` from a relation attempt and
falls back to the next candidate instead of surfacing it. -/
theorem C5_domain_errors :
    (∀ theta P E I L G A : ℚ, E ≠ 0 → I ≠ 0 → G ≠ 0 → A ≠ 0 →
      theta ≠ P * L ^ 3 / (3 * E * I) →
      solve_for_k_ev theta P E I L G A ≠ none) ∧
    (∀ theta P E I L G A : ℚ, theta = P * L ^ 3 / (3 * E * I) ∨ G * A = 0 →
      solve_for_k_ev theta P E I L G A = none) ∧
    (∀ theta P I L k G A : ℚ, I ≠ 0 → k ≠ 0 → G ≠ 0 → A ≠ 0 →
      theta ≠ P * L / (k * G * A) →
      solve_for_E_ev theta P I L k G A ≠ none) ∧
    (∀ theta P I L k G A : ℚ, theta = P * L / (k * G * A) →
      solve_for_E_ev theta P I L k G A = none) ∧
    (∀ theta P E L k G A : ℚ, E ≠ 0 → k ≠ 0 → G ≠ 0 → A ≠ 0 →
      theta ≠ P * L / (k * G * A) →
      solve_for_I_ev theta P E L k G A ≠ none) ∧
    (∀ theta P E L k G A : ℚ, theta = P * L / (k * G * A) →
      solve_for_I_ev theta P E L k G A = none) ∧
    (∀ theta P E I L k A : ℚ, E ≠ 0 → I ≠ 0 → k ≠ 0 → A ≠ 0 →
      theta ≠ P * L ^ 3 / (3 * E * I) →
      solve_for_G_ev theta P E I L k A ≠ none) ∧
    (∀ theta P E I L k A : ℚ, theta = P * L ^ 3 / (3 * E * I) →
      solve_for_G_ev theta P E I L k A = none) ∧
    (∀ theta P E I L k G : ℚ, E ≠ 0 → I ≠ 0 → k ≠ 0 → G ≠ 0 →
      theta ≠ P * L ^ 3 / (3 * E * I) →
      solve_for_A_ev theta P E I L k G ≠ none) ∧
    (∀ theta P E I L k G : ℚ, theta = P * L ^ 3 / (3 * E * I) →
      solve_for_A_ev theta P E I L k G = none) ∧
    (∀ (f : Session → String → Except RErr (ℚ × Session)) (s : Session)
      (n : String) (e : Edge) (rest : List Edge),
      (∀ vs s1, resolveInputs f s e.inputs = .ok (vs, s1) → e.fn vs = none) →
      tryEdges f s n (e :: rest) = tryEdges f s n rest) := by
  refine ⟨?_, ?_, ?_, ?_, ?_, ?_, ?_, ?_, ?_, ?_, ?_⟩
  · intro theta P E I L G A hE hI hG hA hne
    rw [solve_for_k_ev,
      if_neg (mul_ne_zero (mul_ne_zero three_ne_zero hE) hI),
      if_neg (mul_ne_zero (mul_ne_zero hG hA) (sub_ne_zero.mpr hne))]
    simp
  · intro theta P E I L G A h
    by_cases h3 : 3 * E * I = 0
    · rw [solve_for_k_ev, if_pos h3]
    · have hz : G * A * (theta - P * L ^ 3 / (3 * E * I)) = 0 := by
        rcases h with h | h
        · rw [h, sub_self, mul_zero]
        · rw [h, zero_mul]
      rw [solve_for_k_ev, if_neg h3, if_pos hz]
  · intro theta P I L k G A hI hk hG hA hne
    rw [solve_for_E_ev,
      if_neg (mul_ne_zero (mul_ne_zero hk hG) hA),
      if_neg (mul_ne_zero (mul_ne_zero three_ne_zero hI)
        (sub_ne_zero.mpr hne))]
    simp
  · intro theta P I L k G A h
    by_cases hkga : k * G * A = 0
    · rw [solve_for_E_ev, if_pos hkga]
    · rw [solve_for_E_ev, if_neg hkga,
        if_pos (by rw [h, sub_self, mul_zero])]
  · intro theta P E L k G A hE hk hG hA hne
    rw [solve_for_I_ev,
      if_neg (mul_ne_zero (mul_ne_zero hk hG) hA),
      if_neg (mul_ne_zero (mul_ne_zero three_ne_zero hE)
        (sub_ne_zero.mpr hne))]
    simp
  · intro theta P E L k G A h
    by_cases hkga : k * G * A = 0
    · rw [solve_for_I_ev, if_pos hkga]
    · rw [solve_for_I_ev, if_neg hkga,
        if_pos (by rw [h, sub_self, mul_zero])]
  · intro theta P E I L k A hE hI hk hA hne
    rw [solve_for_G_ev,
      if_neg (mul_ne_zero (mul_ne_zero three_ne_zero hE) hI),
      if_neg (mul_ne_zero (mul_ne_zero hk hA) (sub_ne_zero.mpr hne))]
    simp
  · intro theta P E I L k A h
    by_cases h3 : 3 * E * I = 0
    · rw [solve_for_G_ev, if_pos h3]
    · rw [solve_for_G_ev, if_neg h3,
        if_pos (by rw [h, sub_self, mul_zero])]
  · intro theta P E I L k G hE hI hk hG hne
    rw [solve_for_A_ev,
      if_neg (mul_ne_zero (mul_ne_zero three_ne_zero hE) hI),
      if_neg (mul_ne_zero (mul_ne_zero hk hG) (sub_ne_zero.mpr hne))]
    simp
  · intro theta P E I L k G h
    by_cases h3 : 3 * E * I = 0
    · rw [solve_for_A_ev, if_pos h3]
    · rw [solve_for_A_ev, if_neg h3,
        if_pos (by rw [h, sub_self, mul_zero])]
  · intro f s n e rest hfail
    cases hri : resolveInputs f s e.inputs with
    | error err => simp [tryEdges, hri]
    | ok p =>
      obtain ⟨vs, s1⟩ := p
      simp [tryEdges, hri, hfail vs s1 hri]

/-- Witness for the amended C5 at unit inputs: away from the singular
point `solve_for_k` evaluates, and at it the evaluation signals `none`,
as does `solve_for_G` at its own singular point. -/
theorem C5_domain_errors_witness :
    solve_for_k_ev 1 1 1 1 1 1 1 ≠ none ∧
    solve_for_k_ev (1 / 3) 1 1 1 1 1 1 = none ∧
    solve_for_G_ev (1 / 3) 1 1 1 1 1 1 = none :=
  ⟨C5_domain_errors.1 1 1 1 1 1 1 1 one_ne_zero one_ne_zero one_ne_zero
      one_ne_zero (by norm_num),
   C5_domain_errors.2.1 (1 / 3) 1 1 1 1 1 1 (Or.inl (by norm_num)),
   C5_domain_errors.2.2.2.2.2.2.2.1 (1 / 3) 1 1 1 1 1 1 (by norm_num)⟩

/-- Witness for C6 at a concrete root finder. -/
theorem C6_arity_invariant_witness :
    create_beam_model (fun _ => []) = .ok (beamModel (fun _ => [])) ∧
    ((beamModel (fun _ => [])).edges.all
      (fun e => e.inputs.length == e.arity && e.arity == 7)) = true :=
  C6_arity_invariant (fun _ => [])

/-- Witness for C10 at a concrete root finder. -/
theorem C10_only_timoshenko_edges_witness :
    (beamModel (fun _ => [])).nodes = beamLabels ∧
    beamLabels = ["point load", "kappa", "youngs modulus",
      "moment of inertia", "shear modulus", "area", "length", "theta"] ∧
    "radius" ∉ (beamModel (fun _ => [])).nodes ∧
    "poisson ratio" ∉ (beamModel (fun _ => [])).nodes ∧
    ((beamModel (fun _ => [])).edges.map fun e => (e.label, e.inputs, e.output))
      = beamEdgeShape ∧
    (∀ (r : ℚ) (d : Nat),
      resolve (beamModel (fun _ => [])) [("radius", r)] "area" d
        = .error (.unresolved "area")) :=
  C10_only_timoshenko_edges (fun _ => [])
